import Mathlib

/-!
# Verification of `check_update.py`

Shallow embedding of the app-update checker (`src/check_update.py`) and proofs
about its behaviour.  Pure computations (string formatting, ISO-8601 parsing,
the diff loop, the region-fallback resolver and the cache snapshot load/save)
are translated into executable Lean definitions; network responses, the clock
and the local UTC offset are passed in explicitly as parameters, and file
effects are modelled by an explicit file-state type.

Source-name correspondence: `REGIONS`, `REGION_NAMES`, `get_app_ids`,
`get_push_method`, `load_version_cache`, `save_version_cache` (as a trace of
on-disk states), `get_app_info_with_region`, `format_datetime`,
`send_telegram_notification` (its composed request), and `check_updates`
(split into `processApp` for the per-app loop body, `runLoop` for the loop,
and `check_updates_core` for the whole run after configuration is read).
-/

/-! ## Region list and region names

The source's `REGIONS` literal lists 20 storefront codes; its last five
entries are written with dict-literal syntax (`'br': '巴西',` …) inside the
list — a syntax slip in the source.  The intended region codes are the keys,
which coincide with the keys of `REGION_NAMES`; we embed the 20 codes in
source order. -/

def REGIONS : List String :=
  ["cn", "us", "hk", "tw", "jp", "kr", "gb", "sg", "au", "de",
   "fr", "ca", "it", "es", "ru", "br", "mx", "in", "th", "vn"]

def REGION_NAMES : List (String × String) :=
  [("cn", "中国"), ("us", "美国"), ("hk", "香港"), ("tw", "台湾"), ("jp", "日本"),
   ("kr", "韩国"), ("gb", "英国"), ("sg", "新加坡"), ("au", "澳大利亚"),
   ("de", "德国"), ("fr", "法国"), ("ca", "加拿大"), ("it", "意大利"),
   ("es", "西班牙"), ("ru", "俄罗斯"), ("br", "巴西"), ("mx", "墨西哥"),
   ("in", "印度"), ("th", "泰国"), ("vn", "越南")]

/-! ## Dictionaries

Python `dict` as an association list keyed by strings; `dictInsert` mirrors
`d[k] = v` (replace in place, or append a fresh key at the end, preserving
insertion order) and `dictGet` mirrors `d.get(k)`. -/

def dictGet {α : Type} : List (String × α) → String → Option α
  | [], _ => none
  | (k, v) :: rest, key => if k = key then some v else dictGet rest key

def dictInsert {α : Type} (key : String) (val : α) :
    List (String × α) → List (String × α)
  | [] => [(key, val)]
  | (k, v) :: rest =>
      if k = key then (key, val) :: rest else (k, v) :: dictInsert key val rest

/-! ## Version cache store -/

/-- One cache entry, as written by `check_updates`
(`{'version': …, 'app_name': …, 'region': …, 'icon': …, 'updated_at': …}`). -/
structure CacheEntry where
  version : String
  app_name : String
  region : String
  icon : String
  updated_at : String
deriving Repr, DecidableEq

/-- The in-memory cache: a Python dict keyed by app id. -/
abbrev Cache := List (String × CacheEntry)

/-- Abstract state of the on-disk cache file `version_cache.json`:
missing (`FileNotFoundError`), unreadable / not valid JSON, valid JSON whose
top level is not a dict, or a well-formed snapshot. -/
inductive CacheFileState where
  | absent
  | corrupt
  | parsedNonDict
  | wellFormed (cache : Cache)
deriving Repr, DecidableEq

/-- `load_version_cache` (source lines 73–86): a well-formed snapshot is
returned as-is; a missing file, an unreadable/corrupt file, or a non-dict top
level all yield the empty dict. -/
def load_version_cache : CacheFileState → Cache
  | .wellFormed c => c
  | _ => []

/-- `save_version_cache` (source lines 89–92) opens `version_cache.json` with
mode `'w'` — truncating it in place to the empty string, which is not valid
JSON — and then `json.dump`s the snapshot into the same file.  There is no
temporary file and no rename.  This trace lists the successive on-disk states
during a save: first the truncated (hence corrupt) file, then the completed
snapshot. -/
def save_version_cache_trace (c : Cache) : List CacheFileState :=
  [CacheFileState.corrupt, CacheFileState.wellFormed c]

/-- On-disk state after `save_version_cache` runs to completion. -/
def save_completed (c : Cache) : CacheFileState :=
  CacheFileState.wellFormed c

/-- The on-disk states a crash during `save_version_cache` can leave behind
(every state of the trace except the final, completed one). -/
def save_interrupted_states (c : Cache) : List CacheFileState :=
  (save_version_cache_trace c).dropLast

/-! ## Environment-derived configuration -/

/-- The environment variables the program reads (`None` = unset). -/
structure Env where
  app_ids : Option String
  push_method : Option String
  bark_key : Option String
  telegram_bot_token : Option String
  telegram_chat_id : Option String
deriving Repr

/-- `get_push_method` (lines 49–51): `os.getenv('PUSH_METHOD', 'bark').lower()`. -/
def get_push_method (env : Env) : String :=
  (env.push_method.getD "bark").toLower

/-- Python `str.split(sep)` for a one-character separator (`''.split(',')`
gives `['']`, like Python). -/
def splitOnChar (sep : Char) : List Char → List (List Char)
  | [] => [[]]
  | c :: cs =>
      let r := splitOnChar sep cs
      if c = sep then [] :: r
      else
        match r with
        | [] => [[c]]
        | h :: t => (c :: h) :: t

/-- The whitespace characters Python `str.strip()` removes (ASCII part). -/
def isPySpace (c : Char) : Bool :=
  c = ' ' || c = '\t' || c = '\n' || c = '\r' || c = '\x0b' || c = '\x0c'

/-- Python `str.strip()`: drop leading and trailing whitespace. -/
def pyStrip (s : String) : String :=
  String.mk (((s.data.dropWhile isPySpace).reverse.dropWhile isPySpace).reverse)

/-- `get_app_ids` (lines 67–70): split `APP_IDS` (default `''`) on commas,
strip each piece, drop empty pieces. -/
def get_app_ids (env : Env) : List String :=
  ((((splitOnChar ',' (env.app_ids.getD "").data).map String.mk).map pyStrip).filter
    (fun s => s ≠ ""))

/-! ## Region-fallback resolver -/

/-- The fields of one iTunes lookup result that `check_updates` reads
(each may be missing from the JSON object). -/
structure RawResult where
  trackName : Option String
  version : Option String
  releaseNotes : Option String
  trackViewUrl : Option String
  currentVersionReleaseDate : Option String
  artworkUrl100 : Option String
deriving Repr, DecidableEq

/-- A lookup result together with the `detected_region` key that
`get_app_info_with_region` adds to it. -/
structure AppInfo where
  result : RawResult
  detected_region : String
deriving Repr, DecidableEq

/-- Outcome of one `requests.get(ITUNES_API, …)` attempt for one region:
either the request (or `response.json()`) raised, or a response arrived with
an HTTP status, a `resultCount` field (`0` when absent) and a `results`
array. -/
inductive RegionResponse where
  | fault
  | ok (status : Nat) (resultCount : Nat) (results : List RawResult)
deriving Repr, DecidableEq

/-- Loop body of `get_app_info_with_region` (lines 95–118) over an explicit
region list: skip a region on a fault, a non-200 status, a non-positive
`resultCount`, or an empty `results` array (indexing `results[0]` raises,
which the `except` catches); otherwise return `results[0]` with
`detected_region` set. -/
def lookupRegions (resp : String → RegionResponse) : List String → Option AppInfo
  | [] => none
  | region :: rest =>
      match resp region with
      | .fault => lookupRegions resp rest
      | .ok status count results =>
          if status = 200 then
            if count > 0 then
              match results.head? with
              | some r => some ⟨r, region⟩
              | none => lookupRegions resp rest
            else lookupRegions resp rest
          else lookupRegions resp rest

/-- `get_app_info_with_region`, for one app id: its per-region responses are
the function `resp`, and the full `REGIONS` list is tried in order. -/
def get_app_info_with_region (resp : String → RegionResponse) : Option AppInfo :=
  lookupRegions resp REGIONS

/-- Spec-side notion (from the claim wording): a region "yields a positive
result count" when its lookup succeeds (HTTP 200) with `resultCount > 0`. -/
def regionHit (resp : String → RegionResponse) (region : String) : Bool :=
  match resp region with
  | .fault => false
  | .ok status count _ => status == 200 && count > 0

/-- Spec-side resolver (from the claim wording): the first region of the list
that yields a positive result count. -/
def firstPositiveRegion (resp : String → RegionResponse) : List String → Option String
  | [] => none
  | region :: rest =>
      if regionHit resp region then some region else firstPositiveRegion resp rest

/-- Well-formedness of one response, reflecting the iTunes JSON contract:
whenever `resultCount` is positive, the `results` array is nonempty. -/
def respWF : RegionResponse → Bool
  | .fault => true
  | .ok _ count results => if count > 0 then !results.isEmpty else true

/-! ## `format_datetime`

The source (lines 121–128) calls `datetime.fromisoformat` on the input with
`'Z'` replaced by `'+00:00'`, converts to UTC with `astimezone(timezone.utc)`,
drops the timezone, and renders `'%Y-%m-%d %H:%M'`; any exception returns the
raw input unchanged.  The parser below implements the ISO-8601 subset
`YYYY-MM-DD[<sep>HH:MM[:SS[.fff|.ffffff]][±HH:MM]]` accepted by
`datetime.fromisoformat` on every CPython version this script runs on; the
theorems only evaluate it on strings whose acceptance does not depend on the
CPython version.  `astimezone` on a naive value uses the system's local UTC
offset, passed in as `localOff` (in minutes). -/

/-- A parsed `datetime` value; `utcoffset` is in minutes, `none` = naive. -/
structure PyDateTime where
  year : Int
  month : Nat
  day : Nat
  hour : Nat
  minute : Nat
  second : Nat
  microsecond : Nat
  utcoffset : Option Int
deriving Repr, DecidableEq

def digitVal (c : Char) : Option Nat :=
  if 48 ≤ c.toNat ∧ c.toNat ≤ 57 then some (c.toNat - 48) else none

def parse2 : List Char → Option (Nat × List Char)
  | a :: b :: rest =>
      match digitVal a, digitVal b with
      | some x, some y => some (10 * x + y, rest)
      | _, _ => none
  | _ => none

def parse4 : List Char → Option (Nat × List Char)
  | a :: b :: c :: d :: rest =>
      match digitVal a, digitVal b, digitVal c, digitVal d with
      | some w, some x, some y, some z => some (1000 * w + 100 * x + 10 * y + z, rest)
      | _, _, _, _ => none
  | _ => none

def expectChar (c : Char) : List Char → Option (List Char)
  | x :: rest => if x = c then some rest else none
  | [] => none

def takeDigits : List Char → (List Nat × List Char)
  | [] => ([], [])
  | c :: rest =>
      match digitVal c with
      | some d =>
          let (ds, r) := takeDigits rest
          (d :: ds, r)
      | none => ([], c :: rest)

def digitsVal (ds : List Nat) : Nat :=
  ds.foldl (fun acc d => 10 * acc + d) 0

def isLeap (y : Nat) : Bool :=
  (y % 4 = 0 && y % 100 ≠ 0) || y % 400 = 0

def daysInMonth (y m : Nat) : Nat :=
  if m = 2 then (if isLeap y then 29 else 28)
  else if m = 4 ∨ m = 6 ∨ m = 9 ∨ m = 11 then 30
  else 31

/-- Optional `:SS[.fff|.ffffff]` part of a time string; returns
`(seconds, microseconds, rest)`. -/
def parseSecFrac (cs : List Char) : Option (Nat × Nat × List Char) :=
  match cs with
  | ':' :: rest =>
      match parse2 rest with
      | none => none
      | some (sec, rest2) =>
          if sec ≥ 60 then none
          else
            match rest2 with
            | '.' :: rest3 =>
                let (ds, rest4) := takeDigits rest3
                if ds.length = 3 then some (sec, digitsVal ds * 1000, rest4)
                else if ds.length = 6 then some (sec, digitsVal ds, rest4)
                else none
            | _ => some (sec, 0, rest2)
  | _ => some (0, 0, cs)

def parseOffHM (cs : List Char) : Option (Int × List Char) :=
  match parse2 cs with
  | none => none
  | some (h, cs1) =>
      match expectChar ':' cs1 with
      | none => none
      | some cs2 =>
          match parse2 cs2 with
          | none => none
          | some (m, cs3) =>
              if h ≤ 23 ∧ m ≤ 59 then some (((h * 60 + m : Nat) : Int), cs3) else none

/-- Optional `±HH:MM` UTC-offset suffix; returns the offset in minutes. -/
def parseOffset (cs : List Char) : Option (Option Int × List Char) :=
  match cs with
  | '+' :: rest => (parseOffHM rest).map (fun p => (some p.1, p.2))
  | '-' :: rest => (parseOffHM rest).map (fun p => (some (-p.1), p.2))
  | _ => some (none, cs)

/-- `HH:MM[:SS[.frac]][±HH:MM]`, which must consume the whole string. -/
def parseTimePart (cs : List Char) : Option (Nat × Nat × Nat × Nat × Option Int) :=
  match parse2 cs with
  | none => none
  | some (h, cs1) =>
      match expectChar ':' cs1 with
      | none => none
      | some cs2 =>
          match parse2 cs2 with
          | none => none
          | some (mi, cs3) =>
              match parseSecFrac cs3 with
              | none => none
              | some (sec, micro, cs4) =>
                  match parseOffset cs4 with
                  | none => none
                  | some (off, cs5) =>
                      if cs5 = [] ∧ h ≤ 23 ∧ mi ≤ 59 then some (h, mi, sec, micro, off)
                      else none

/-- `datetime.fromisoformat` on the supported subset: a full
`YYYY-MM-DD` calendar date (validated), optionally followed by a one-character
separator and a time-of-day with optional offset. -/
def fromisoformat (s : String) : Option PyDateTime :=
  match parse4 s.data with
  | none => none
  | some (y, cs1) =>
      match expectChar '-' cs1 with
      | none => none
      | some cs2 =>
          match parse2 cs2 with
          | none => none
          | some (mo, cs3) =>
              match expectChar '-' cs3 with
              | none => none
              | some cs4 =>
                  match parse2 cs4 with
                  | none => none
                  | some (d, cs5) =>
                      if 1 ≤ y ∧ y ≤ 9999 ∧ 1 ≤ mo ∧ mo ≤ 12 ∧ 1 ≤ d ∧ d ≤ daysInMonth y mo then
                        match cs5 with
                        | [] => some ⟨(y : Int), mo, d, 0, 0, 0, 0, none⟩
                        | _ :: timecs =>
                            match parseTimePart timecs with
                            | none => none
                            | some (h, mi, sec, micro, off) =>
                                some ⟨(y : Int), mo, d, h, mi, sec, micro, off⟩
                      else none

/-- Days since 1970-01-01 of a proleptic-Gregorian calendar date. -/
def daysFromCivil (y : Int) (m d : Nat) : Int :=
  let y' : Int := if m ≤ 2 then y - 1 else y
  let era : Int := Int.fdiv y' 400
  let yoe : Nat := (y' - era * 400).toNat
  let mp : Nat := if m > 2 then m - 3 else m + 9
  let doy : Nat := (153 * mp + 2) / 5 + d - 1
  let doe : Nat := yoe * 365 + yoe / 4 - yoe / 100 + doy
  era * 146097 + (doe : Int) - 719468

/-- Calendar date of a day number (inverse of `daysFromCivil`). -/
def civilFromDays (z : Int) : Int × Nat × Nat :=
  let z' : Int := z + 719468
  let era : Int := Int.fdiv z' 146097
  let doe : Nat := (z' - era * 146097).toNat
  let yoe : Nat := (doe - doe / 1460 + doe / 36524 - doe / 146096) / 365
  let y0 : Int := (yoe : Int) + era * 400
  let doy : Nat := doe - (365 * yoe + yoe / 4 - yoe / 100)
  let mp : Nat := (5 * doy + 2) / 153
  let d : Nat := doy - (153 * mp + 2) / 5 + 1
  let m : Nat := if mp < 10 then mp + 3 else mp - 9
  (if m ≤ 2 then y0 + 1 else y0, m, d)

/-- Shift a datetime by `delta` minutes (seconds and fractions untouched). -/
def addMinutes (dt : PyDateTime) (delta : Int) : PyDateTime :=
  let total : Int := daysFromCivil dt.year dt.month dt.day * 1440
      + ((dt.hour * 60 + dt.minute : Nat) : Int) + delta
  let dayN : Int := Int.fdiv total 1440
  let rem : Nat := (total - dayN * 1440).toNat
  let c := civilFromDays dayN
  { year := c.1, month := c.2.1, day := c.2.2, hour := rem / 60, minute := rem % 60,
    second := dt.second, microsecond := dt.microsecond, utcoffset := dt.utcoffset }

/-- `dt.astimezone(timezone.utc).replace(tzinfo=None)`: an aware value is
shifted by its own offset, a naive one by the system's local offset. -/
def astimezone_utc_naive (localOff : Int) (dt : PyDateTime) : PyDateTime :=
  let off := dt.utcoffset.getD localOff
  let dt' := addMinutes dt (-off)
  { dt' with utcoffset := none }

/-- Replace every occurrence of a single character by a string
(`str.replace` with a one-character pattern, as in line 124). -/
def replaceCharList (pat : Char) (rep : List Char) : List Char → List Char
  | [] => []
  | c :: cs =>
      if c = pat then rep ++ replaceCharList pat rep cs
      else c :: replaceCharList pat rep cs

/-- `iso_datetime.replace('Z', '+00:00')` (line 124). -/
def pyReplaceZ (s : String) : String :=
  String.mk (replaceCharList 'Z' ("+00:00".data) s.data)

def pad2 (n : Nat) : String :=
  if n < 10 then "0" ++ toString n else toString n

/-- `strftime('%Y-%m-%d %H:%M')` (`%Y` unpadded, as on glibc). -/
def strftime_ymd_hm (dt : PyDateTime) : String :=
  toString dt.year ++ "-" ++ pad2 dt.month ++ "-" ++ pad2 dt.day ++ " "
    ++ pad2 dt.hour ++ ":" ++ pad2 dt.minute

/-- `format_datetime` (lines 121–128). -/
def format_datetime (localOff : Int) (iso_datetime : String) : String :=
  match fromisoformat (pyReplaceZ iso_datetime) with
  | some dt => strftime_ymd_hm (astimezone_utc_naive localOff dt)
  | none => iso_datetime

/-- The call-site guard at line 257:
`format_datetime(release_date) if release_date else '未知'`. -/
def formatted_release_date (localOff : Int) (release_date : String) : String :=
  if release_date = "" then "未知" else format_datetime localOff release_date

/-! ## Telegram notification composition -/

def TELEGRAM_API : String := "https://api.telegram.org/bot"

/-- JSON payload posted by `send_telegram_notification` (lines 157–179). -/
structure TelegramPayload where
  chat_id : String
  text : String
  parse_mode : String
  disable_web_page_preview : Bool
deriving Repr, DecidableEq

/-- The message text composed by `send_telegram_notification`:
`f"*{title}*\n\n{content}"` — title and content are interpolated verbatim. -/
def telegram_message (title content : String) : String :=
  "*" ++ title ++ "*" ++ "\n\n" ++ content

/-- The full request `send_telegram_notification` posts: the target URL and
the JSON payload. -/
def send_telegram_notification_request (bot_token chat_id title content : String) :
    String × TelegramPayload :=
  (TELEGRAM_API ++ bot_token ++ "/sendMessage",
   ⟨chat_id, telegram_message title content, "Markdown", false⟩)

/-- The Telegram markup-significant characters named by the spec's escape set. -/
def telegramSpecialChars : String :=
  "_*[]()~`>#+-=|\x7b\x7d.!"

def isTelegramSpecial (c : Char) : Bool :=
  telegramSpecialChars.data.contains c

/-- Spec-side predicate (from the claim wording): every markup-significant
character of the text is immediately preceded by a backslash (a backslash
escapes whatever single character follows it). -/
def allSpecialsEscaped : List Char → Bool
  | [] => true
  | '\\' :: _ :: rest => allSpecialsEscaped rest
  | c :: rest => !isTelegramSpecial c && allSpecialsEscaped rest

/-! ## `check_updates` -/

/-- The per-app status dict accumulated into `all_current_apps` on a first
run (lines 263–273). -/
structure AppStatus where
  app_id : String
  app_name : String
  version : String
  release_notes : String
  release_date : String
  app_url : String
  app_icon : String
  region : String
deriving Repr, DecidableEq

/-- The per-app update dict accumulated into `updated_apps` on a later run
(lines 290–300). -/
structure UpdateInfo where
  app_id : String
  app_name : String
  old_version : String
  new_version : String
  release_notes : String
  release_date : String
  app_url : String
  app_icon : String
  region : String
deriving Repr, DecidableEq

/-- `app_info.get('trackName', 'Unknown')` and friends, lines 248–255. -/
def app_name_of (info : AppInfo) : String := info.result.trackName.getD "Unknown"
def current_version_of (info : AppInfo) : String := info.result.version.getD "0.0.0"
def release_notes_of (info : AppInfo) : String := info.result.releaseNotes.getD "无更新说明"
def app_url_of (info : AppInfo) : String := info.result.trackViewUrl.getD ""
def release_date_of (info : AppInfo) : String := info.result.currentVersionReleaseDate.getD ""
def app_icon_of (info : AppInfo) : String := info.result.artworkUrl100.getD ""
def region_name_of (info : AppInfo) : String :=
  (dictGet REGION_NAMES info.detected_region).getD info.detected_region.toUpper

/-- The cache entry written for an app (lines 276–282 and 303–309);
`now` is `datetime.now().isoformat()`. -/
def cacheEntryOf (now : String) (info : AppInfo) : CacheEntry :=
  ⟨current_version_of info, app_name_of info, info.detected_region, app_icon_of info, now⟩

/-- The `app_status` dict of the first-run branch (lines 263–272). -/
def appStatusOf (localOff : Int) (appId : String) (info : AppInfo) : AppStatus :=
  ⟨appId, app_name_of info, current_version_of info, release_notes_of info,
   formatted_release_date localOff (release_date_of info),
   app_url_of info, app_icon_of info, region_name_of info⟩

/-- The `update_info` dict of the changed-version branch (lines 290–300),
with the already-resolved `old_version` field. -/
def updateInfoOf (localOff : Int) (appId : String) (old_version : String)
    (info : AppInfo) : UpdateInfo :=
  ⟨appId, app_name_of info, old_version, current_version_of info,
   release_notes_of info, formatted_release_date localOff (release_date_of info),
   app_url_of info, app_icon_of info, region_name_of info⟩

/-- State threaded through the `for app_id in app_ids` loop. -/
structure LoopState where
  cache : Cache
  updated : List UpdateInfo
  allCurrent : List AppStatus
deriving Repr, DecidableEq

/-- `cache.get(app_id, {}).get('version', '')` (line 258). -/
def cachedVersionAt (cache : Cache) (appId : String) : String :=
  ((dictGet cache appId).map CacheEntry.version).getD ""

/-- `cached_version if cached_version else '首次检测'` (line 293): the
`old_version` field falls back to the placeholder when the cached version is
the empty string. -/
def oldVersionOf (cached_version : String) : String :=
  if cached_version = "" then "首次检测" else cached_version

/-- One iteration of the loop body (lines 240–311): a failed lookup skips the
app; on a first run the app is appended to `all_current_apps` and written to
the cache; on a later run it is recorded and written only when the cached
version string differs from the fetched one (`old_version` falls back to the
placeholder `'首次检测'` when the cached version is empty), and is left
completely untouched otherwise. -/
def processApp (isFirst : Bool) (now : String) (localOff : Int)
    (st : LoopState) (appId : String) (info? : Option AppInfo) : LoopState :=
  match info? with
  | none => st
  | some info =>
      if isFirst then
        { st with
          allCurrent := st.allCurrent ++ [appStatusOf localOff appId info],
          cache := dictInsert appId (cacheEntryOf now info) st.cache }
      else
        let cached_version := cachedVersionAt st.cache appId
        if cached_version ≠ current_version_of info then
          { st with
            updated := st.updated ++
              [updateInfoOf localOff appId (oldVersionOf cached_version) info],
            cache := dictInsert appId (cacheEntryOf now info) st.cache }
        else st

/-- The `for app_id in app_ids` loop. -/
def runLoop (isFirst : Bool) (now : String) (localOff : Int)
    (fetch : String → Option AppInfo) : List String → LoopState → LoopState
  | [], st => st
  | appId :: rest, st =>
      runLoop isFirst now localOff fetch rest
        (processApp isFirst now localOff st appId (fetch appId))

/-- `notes[:n]` plus the `'...'` marker when the notes overflow `n`
characters (used with `n = 80` on first runs and `n = 100` in batches). -/
def truncNotes (n : Nat) (notes : String) : String :=
  notes.take n ++ (if notes.length > n then "..." else "")

/-- One `send_notification(title, content, url, icon_url)` call made by the
run (the call's arguments; its boolean result is ignored by `check_updates`). -/
structure SentNotification where
  title : String
  content : String
  url : Option String
  icon : Option String
deriving Repr, DecidableEq

/-- `f"🔗 [{app_name}]({app_url})"` link lines, joined by newlines. -/
def linkLines (apps : List (String × String)) : String :=
  String.intercalate "\n" (apps.map (fun p => "🔗 [" ++ p.1 ++ "](" ++ p.2 ++ ")"))

/-- One block of the first-run summary (lines 325–329), `i` 0-based. -/
def first_run_part (i : Nat) (app : AppStatus) : String :=
  toString (i + 1) ++ ". *" ++ app.app_name ++ "* v" ++ app.version ++ "\n   地区: "
    ++ app.region ++ " | 更新时间: " ++ app.release_date ++ "\n   "
    ++ truncNotes 80 app.release_notes ++ "\n"

/-- First-run summary notification (lines 322–348). -/
def first_run_notification (pushMethod : String) (apps : List AppStatus) :
    SentNotification :=
  let title := "📱 App Store 监控初始化完成（" ++ toString apps.length ++ " 个应用）"
  let content := "本次为首次运行，已创建缓存库，当前各应用最新版本如下：\n\n"
      ++ String.intercalate "\n" (apps.enum.map (fun p => first_run_part p.1 p.2))
  if pushMethod = "bark" then
    match apps with
    | [] => ⟨title, content, none, none⟩
    | a :: _ => ⟨title, content, some a.app_url, some a.app_icon⟩
  else
    ⟨title, content ++ "\n" ++ linkLines (apps.map (fun a => (a.app_name, a.app_url))),
     none, none⟩

/-- Single-update notification (lines 362–375). -/
def single_update_notification (pushMethod : String) (app : UpdateInfo) :
    SentNotification :=
  let title := "📱 " ++ app.app_name ++ " 已更新"
  let content := "版本: " ++ app.new_version ++ "\n地区: " ++ app.region
      ++ "\n更新时间: " ++ app.release_date ++ "\n\n更新内容:\n"
      ++ app.release_notes.take 300
  if pushMethod = "bark" then
    ⟨title, content, some app.app_url, some app.app_icon⟩
  else
    ⟨title, content ++ "\n\n🔗 [" ++ app.app_name ++ "](" ++ app.app_url ++ ")",
     none, none⟩

/-- One block of the batch notification (lines 379–384), `i` 0-based. -/
def multi_update_part (i : Nat) (app : UpdateInfo) : String :=
  toString (i + 1) ++ ". *" ++ app.app_name ++ "* " ++ app.old_version ++ " → "
    ++ app.new_version ++ "\n   地区: " ++ app.region ++ " | 更新时间: "
    ++ app.release_date ++ "\n   " ++ truncNotes 100 app.release_notes ++ "\n"

/-- Batch update notification (lines 376–401). -/
def multi_update_notification (pushMethod : String) (apps : List UpdateInfo) :
    SentNotification :=
  let title := "📱 App Store 更新通知（" ++ toString apps.length ++ " 个应用）"
  let content := String.intercalate "\n" (apps.enum.map (fun p => multi_update_part p.1 p.2))
  if pushMethod = "bark" then
    match apps with
    | [] => ⟨title, content, none, none⟩
    | a :: _ => ⟨title, content, some a.app_url, some a.app_icon⟩
  else
    ⟨title, content ++ "\n\n" ++ linkLines (apps.map (fun a => (a.app_name, a.app_url))),
     none, none⟩

/-- The observable outcome of one `check_updates` run.  `aborted` is the
early `return` for an empty app-id list (before the cache file is even
loaded; `finalCache` then just reports the untouched snapshot).
`notifications` lists the `send_notification` calls in order, and
`cacheSaved` records whether the `save_version_cache` step was reached. -/
structure RunResult where
  aborted : Bool
  finalCache : Cache
  updatedApps : List UpdateInfo
  allCurrentApps : List AppStatus
  notifications : List SentNotification
  cacheSaved : Bool
deriving Repr, DecidableEq

/-- `check_updates` (lines 211–405) after its configuration reads: abort on an
empty id list; otherwise run the loop (first run iff the loaded cache is
empty), then push and save — a first run with no successful lookup, or a
later run with no updates, returns before `save_version_cache`. -/
def check_updates_core (pushMethod : String) (appIds : List String) (cache0 : Cache)
    (fetch : String → Option AppInfo) (now : String) (localOff : Int) : RunResult :=
  if appIds.isEmpty then
    ⟨true, cache0, [], [], [], false⟩
  else
    let isFirst := cache0.isEmpty
    let st := runLoop isFirst now localOff fetch appIds ⟨cache0, [], []⟩
    if isFirst then
      if st.allCurrent.isEmpty then
        ⟨false, st.cache, st.updated, st.allCurrent, [], false⟩
      else
        ⟨false, st.cache, st.updated, st.allCurrent,
         [first_run_notification pushMethod st.allCurrent], true⟩
    else
      match st.updated with
      | [] => ⟨false, st.cache, st.updated, st.allCurrent, [], false⟩
      | [a] =>
          ⟨false, st.cache, st.updated, st.allCurrent,
           [single_update_notification pushMethod a], true⟩
      | _ =>
          ⟨false, st.cache, st.updated, st.allCurrent,
           [multi_update_notification pushMethod st.updated], true⟩

/-- `check_updates` from the configuration environment and the on-disk cache
file state. -/
def check_updates (env : Env) (file : CacheFileState)
    (fetch : String → Option AppInfo) (now : String) (localOff : Int) : RunResult :=
  check_updates_core (get_push_method env) (get_app_ids env)
    (load_version_cache file) fetch now localOff

/-! ## Concrete fixtures used by the witnesses and counterexamples -/

def sampleRaw : RawResult :=
  ⟨some "SampleApp", some "1.0", some "sample notes", some "https://apps.example/app",
   some "2024-01-02T03:04:05Z", some "https://icons.example/i.png"⟩

/-- Responses whose only positive region is `"hk"` (the 3rd region tried). -/
def respHK : String → RegionResponse := fun rg =>
  if rg = "hk" then RegionResponse.ok 200 1 [sampleRaw] else RegionResponse.ok 200 0 []

/-- Responses whose only positive region is `"de"` (the 10th region tried). -/
def respDE : String → RegionResponse := fun rg =>
  if rg = "de" then RegionResponse.ok 200 1 [sampleRaw] else RegionResponse.ok 200 0 []

/-- Responses with no positive region at all. -/
def respNone : String → RegionResponse := fun _ => RegionResponse.ok 200 0 []

def entryOld : CacheEntry := ⟨"1.0", "Old", "us", "old-icon", "t0"⟩

/-- Same version `"1.0"` as `entryOld`, but different name and icon. -/
def infoSameVersion : AppInfo :=
  ⟨⟨some "New", some "1.0", some "notes", some "https://x",
    some "2024-01-02T03:04:05Z", some "new-icon"⟩, "cn"⟩

/-- A non-first run in which the fetched version of app `"1"` equals the
cached one while its name and icon changed upstream. -/
def runUnchanged : RunResult :=
  check_updates_core "bark" ["1"] [("1", entryOld)]
    (fun _ => some infoSameVersion) "NOW" 0

def entryOther : CacheEntry := ⟨"9.9", "Other", "us", "", "t0"⟩

def infoNew : AppInfo :=
  ⟨⟨some "New", some "2.0", some "notes", some "https://x",
    some "2024-01-02T03:04:05Z", some "new-icon"⟩, "cn"⟩

def fetchOnlyOne : String → Option AppInfo := fun id =>
  if id = "1" then some infoNew else none

/-- A non-first run with app `"1"` absent from the (nonempty) cache. -/
def runAbsentId : RunResult :=
  check_updates_core "bark" ["1"] [("other", entryOther)] fetchOnlyOne "NOW" 0

def entryTwo : CacheEntry := ⟨"1.0", "Two", "us", "icon", "t0"⟩

def infoTwoSame : AppInfo :=
  ⟨⟨some "Two", some "1.0", some "notes", some "https://y",
    some "2024-01-02T03:04:05Z", some "icon"⟩, "us"⟩

def fetchSoftFail : String → Option AppInfo := fun id =>
  if id = "2" then some infoTwoSame else none

/-- A non-first run where the lookup of `"1"` fails in every region and `"2"`
is unchanged: nothing is recorded and the save step is never reached. -/
def runSoftFailNoSave : RunResult :=
  check_updates_core "bark" ["1", "2"] [("2", entryTwo)] fetchSoftFail "NOW" 0

def envUnset : Env := ⟨none, none, none, none, none⟩

def invalidDateStr : String := "completely-invalid-datetime"

/-! ## Helper lemmas -/

theorem dictGet_dictInsert_self {α : Type} (k : String) (v : α) (d : List (String × α)) :
    dictGet (dictInsert k v d) k = some v := by
  induction d with
  | nil => simp [dictInsert, dictGet]
  | cons hd tl ih =>
      obtain ⟨k0, v0⟩ := hd
      by_cases h : k0 = k
      · simp [dictInsert, h, dictGet]
      · simp [dictInsert, h, dictGet, ih]

theorem dictGet_dictInsert_ne {α : Type} (k : String) (v : α) (d : List (String × α))
    (a : String) (h : k ≠ a) :
    dictGet (dictInsert k v d) a = dictGet d a := by
  induction d with
  | nil => simp [dictInsert, dictGet, h]
  | cons hd tl ih =>
      obtain ⟨k0, v0⟩ := hd
      by_cases h0 : k0 = k
      · subst h0
        simp [dictInsert, dictGet, h]
      · simp [dictInsert, h0, dictGet, ih]

theorem processApp_none (isF : Bool) (now : String) (off : Int) (st : LoopState)
    (a : String) : processApp isF now off st a none = st := rfl

theorem processApp_first (now : String) (off : Int) (st : LoopState) (a : String)
    (info : AppInfo) :
    processApp true now off st a (some info) =
      { st with allCurrent := st.allCurrent ++ [appStatusOf off a info],
                cache := dictInsert a (cacheEntryOf now info) st.cache } := rfl

theorem processApp_notFirst_unchanged (now : String) (off : Int) (st : LoopState)
    (a : String) (info : AppInfo)
    (h : cachedVersionAt st.cache a = current_version_of info) :
    processApp false now off st a (some info) = st := by
  simp [processApp, h]

theorem processApp_notFirst_changed (now : String) (off : Int) (st : LoopState)
    (a : String) (info : AppInfo)
    (h : cachedVersionAt st.cache a ≠ current_version_of info) :
    processApp false now off st a (some info) =
      { st with
        updated :=
          st.updated ++ [updateInfoOf off a (oldVersionOf (cachedVersionAt st.cache a)) info],
        cache := dictInsert a (cacheEntryOf now info) st.cache } := by
  simp [processApp, h]

theorem updateInfoOf_app_id (off : Int) (a ov : String) (info : AppInfo) :
    (updateInfoOf off a ov info).app_id = a := rfl

theorem appStatusOf_app_id (off : Int) (a : String) (info : AppInfo) :
    (appStatusOf off a info).app_id = a := rfl

/-- Processing an app id `b ≠ a` never changes the cache entry of `a`. -/
theorem processApp_cache_other (isF : Bool) (now : String) (off : Int) (st : LoopState)
    (b : String) (i? : Option AppInfo) (a : String) (h : b ≠ a) :
    dictGet (processApp isF now off st b i?).cache a = dictGet st.cache a := by
  cases i? with
  | none => rfl
  | some info =>
      cases isF with
      | true => simp [processApp_first, dictGet_dictInsert_ne _ _ _ _ h]
      | false =>
          by_cases hv : cachedVersionAt st.cache b = current_version_of info
          · rw [processApp_notFirst_unchanged _ _ _ _ _ hv]
          · rw [processApp_notFirst_changed _ _ _ _ _ hv]
            exact dictGet_dictInsert_ne _ _ _ _ h

/-- Processing an app id `b ≠ a` never adds an update record for `a`. -/
theorem processApp_updated_other (isF : Bool) (now : String) (off : Int) (st : LoopState)
    (b : String) (i? : Option AppInfo) (a : String) (h : b ≠ a) :
    (processApp isF now off st b i?).updated.filter (fun u => u.app_id == a)
      = st.updated.filter (fun u => u.app_id == a) := by
  cases i? with
  | none => rfl
  | some info =>
      cases isF with
      | true => simp [processApp_first]
      | false =>
          by_cases hv : cachedVersionAt st.cache b = current_version_of info
          · rw [processApp_notFirst_unchanged _ _ _ _ _ hv]
          · rw [processApp_notFirst_changed _ _ _ _ _ hv]
            simp [List.filter_append, updateInfoOf_app_id, h]

/-- On a non-first run the loop body never touches `all_current_apps`. -/
theorem processApp_notFirst_allCurrent (now : String) (off : Int) (st : LoopState)
    (b : String) (i? : Option AppInfo) :
    (processApp false now off st b i?).allCurrent = st.allCurrent := by
  cases i? with
  | none => rfl
  | some info =>
      by_cases hv : cachedVersionAt st.cache b = current_version_of info
      · rw [processApp_notFirst_unchanged _ _ _ _ _ hv]
      · rw [processApp_notFirst_changed _ _ _ _ _ hv]

/-- On a first run the loop body never touches `updated_apps`. -/
theorem processApp_first_updated (now : String) (off : Int) (st : LoopState)
    (b : String) (i? : Option AppInfo) :
    (processApp true now off st b i?).updated = st.updated := by
  cases i? with
  | none => rfl
  | some info => rw [processApp_first]

theorem runLoop_append (isF : Bool) (now : String) (off : Int)
    (fetch : String → Option AppInfo) (xs ys : List String) (st : LoopState) :
    runLoop isF now off fetch (xs ++ ys) st
      = runLoop isF now off fetch ys (runLoop isF now off fetch xs st) := by
  induction xs generalizing st with
  | nil => rfl
  | cons hd tl ih => simp [runLoop, ih]

/-- Looping over ids that avoid `a` preserves `a`'s cache entry and its
(absence of) update records. -/
theorem runLoop_preserves_other (isF : Bool) (now : String) (off : Int)
    (fetch : String → Option AppInfo) (ids : List String) (a : String)
    (h : a ∉ ids) (st : LoopState) :
    dictGet (runLoop isF now off fetch ids st).cache a = dictGet st.cache a
    ∧ (runLoop isF now off fetch ids st).updated.filter (fun u => u.app_id == a)
        = st.updated.filter (fun u => u.app_id == a) := by
  induction ids generalizing st with
  | nil => exact ⟨rfl, rfl⟩
  | cons hd tl ih =>
      have hhd : hd ≠ a := fun he => h (he ▸ List.mem_cons_self hd tl)
      have htl : a ∉ tl := fun he => h (List.mem_cons_of_mem hd he)
      have := ih htl (processApp isF now off st hd (fetch hd))
      refine ⟨?_, ?_⟩
      · rw [runLoop, this.1, processApp_cache_other _ _ _ _ _ _ _ hhd]
      · rw [runLoop, this.2, processApp_updated_other _ _ _ _ _ _ _ hhd]

/-- A non-first-run loop never touches `all_current_apps`. -/
theorem runLoop_notFirst_allCurrent (now : String) (off : Int)
    (fetch : String → Option AppInfo) (ids : List String) (st : LoopState) :
    (runLoop false now off fetch ids st).allCurrent = st.allCurrent := by
  induction ids generalizing st with
  | nil => rfl
  | cons hd tl ih =>
      rw [runLoop, ih, processApp_notFirst_allCurrent]

/-- A first-run loop never touches `updated_apps`. -/
theorem runLoop_first_updated (now : String) (off : Int)
    (fetch : String → Option AppInfo) (ids : List String) (st : LoopState) :
    (runLoop true now off fetch ids st).updated = st.updated := by
  induction ids generalizing st with
  | nil => rfl
  | cons hd tl ih =>
      rw [runLoop, ih, processApp_first_updated]

/-- On a first run, the app ids of `all_current_apps` are exactly the ids of
the loop whose lookup succeeded, in iteration order. -/
theorem runLoop_first_allCurrent_ids (now : String) (off : Int)
    (fetch : String → Option AppInfo) (ids : List String) (st : LoopState) :
    (runLoop true now off fetch ids st).allCurrent.map AppStatus.app_id
      = st.allCurrent.map AppStatus.app_id
        ++ ids.filter (fun id => (fetch id).isSome) := by
  induction ids generalizing st with
  | nil => simp [runLoop]
  | cons hd tl ih =>
      rw [runLoop, ih]
      cases hfe : fetch hd with
      | none => simp [processApp_none, hfe]
      | some info => simp [processApp_first, appStatusOf_app_id, hfe]

/-- On a first run, the final cache has an entry exactly for the keys of the
initial cache and the looped ids with a successful lookup. -/
theorem runLoop_first_cache_keys (now : String) (off : Int)
    (fetch : String → Option AppInfo) (ids : List String) (st : LoopState)
    (x : String) :
    (dictGet (runLoop true now off fetch ids st).cache x).isSome
      = ((dictGet st.cache x).isSome || (ids.contains x && (fetch x).isSome)) := by
  induction ids generalizing st with
  | nil => simp [runLoop]
  | cons hd tl ih =>
      rw [runLoop, ih]
      by_cases hx : hd = x
      · subst hx
        cases hfe : fetch hd with
        | none => simp [processApp_none, hfe]
        | some info =>
            simp [processApp_first, dictGet_dictInsert_self, hfe, List.contains_cons]
      · have hx' : x ≠ hd := fun he => hx he.symm
        cases hfe : fetch hd with
        | none => simp [processApp_none, List.contains_cons, hx']
        | some info =>
            simp [processApp_first, dictGet_dictInsert_ne _ _ _ _ hx,
              List.contains_cons, hx']

/-- On a non-abort run, the result fields come straight from the final loop
state, whichever push branch is taken. -/
theorem check_updates_core_fields (pushMethod : String) (appIds : List String)
    (cache0 : Cache) (fetch : String → Option AppInfo) (now : String) (localOff : Int)
    (h : appIds ≠ []) :
    (check_updates_core pushMethod appIds cache0 fetch now localOff).finalCache
        = (runLoop cache0.isEmpty now localOff fetch appIds ⟨cache0, [], []⟩).cache
    ∧ (check_updates_core pushMethod appIds cache0 fetch now localOff).updatedApps
        = (runLoop cache0.isEmpty now localOff fetch appIds ⟨cache0, [], []⟩).updated
    ∧ (check_updates_core pushMethod appIds cache0 fetch now localOff).allCurrentApps
        = (runLoop cache0.isEmpty now localOff fetch appIds ⟨cache0, [], []⟩).allCurrent
    ∧ (check_updates_core pushMethod appIds cache0 fetch now localOff).aborted = false := by
  have hne : appIds.isEmpty = false := by
    cases appIds with
    | nil => exact absurd rfl h
    | cons hd tl => rfl
  unfold check_updates_core
  rw [hne]
  simp only [Bool.false_eq_true, if_false]
  split
  · split
    · exact ⟨rfl, rfl, rfl, rfl⟩
    · exact ⟨rfl, rfl, rfl, rfl⟩
  · split
    · exact ⟨rfl, rfl, rfl, rfl⟩
    · exact ⟨rfl, rfl, rfl, rfl⟩
    · exact ⟨rfl, rfl, rfl, rfl⟩

/-- Core resolver correctness over any region list: under the iTunes JSON
contract, the loop returns exactly the first region with a successful,
nonempty lookup, carrying that region code and the head result. -/
theorem lookupRegions_first_positive (resp : String → RegionResponse)
    (regions : List String) (hwf : ∀ rg ∈ regions, respWF (resp rg) = true) :
    (lookupRegions resp regions).map AppInfo.detected_region
        = firstPositiveRegion resp regions
    ∧ ∀ info, lookupRegions resp regions = some info →
        ∃ status count results,
          resp info.detected_region = RegionResponse.ok status count results
          ∧ status = 200 ∧ 0 < count ∧ results.head? = some info.result := by
  induction regions with
  | nil =>
      exact ⟨rfl, fun info h => by cases h⟩
  | cons hd tl ih =>
      have hhd : respWF (resp hd) = true := hwf hd (List.mem_cons_self hd tl)
      obtain ⟨ih1, ih2⟩ := ih (fun rg hrg => hwf rg (List.mem_cons_of_mem hd hrg))
      cases hr : resp hd with
      | fault =>
          refine ⟨?_, ?_⟩
          · simpa [lookupRegions, firstPositiveRegion, regionHit, hr] using ih1
          · intro info hinfo
            apply ih2
            simpa [lookupRegions, hr] using hinfo
      | ok status count results =>
          by_cases hs : status = 200
          · by_cases hc : 0 < count
            · rw [hr] at hhd
              simp [respWF, hc] at hhd
              cases results with
              | nil => simp [List.isEmpty] at hhd
              | cons r rs =>
                  refine ⟨?_, ?_⟩
                  · simp [lookupRegions, firstPositiveRegion, regionHit, hr, hs, hc]
                  · intro info hinfo
                    simp [lookupRegions, hr, hs, hc] at hinfo
                    subst hinfo
                    exact ⟨status, count, r :: rs, hr, hs, hc, rfl⟩
            · refine ⟨?_, ?_⟩
              · simpa [lookupRegions, firstPositiveRegion, regionHit, hr, hs, hc] using ih1
              · intro info hinfo
                apply ih2
                simpa [lookupRegions, hr, hs, hc] using hinfo
          · refine ⟨?_, ?_⟩
            · simpa [lookupRegions, firstPositiveRegion, regionHit, hr, hs] using ih1
            · intro info hinfo
              apply ih2
              simpa [lookupRegions, hr, hs] using hinfo

/-- The spec-side resolver returns `none` exactly when no region of the list
yields a positive result count. -/
theorem firstPositiveRegion_eq_none_iff (resp : String → RegionResponse)
    (l : List String) :
    firstPositiveRegion resp l = none ↔ ∀ rg ∈ l, regionHit resp rg = false := by
  induction l with
  | nil => simp [firstPositiveRegion]
  | cons hd tl ih =>
      cases hh : regionHit resp hd with
      | true => simp [firstPositiveRegion, hh]
      | false => simp [firstPositiveRegion, hh, ih]

/-- Invariant for the unchanged path: if the run is not a first run and the
fetched version of `a` equals the version cached for `a`, then no iteration
of the loop ever rewrites the cache entry of `a` or records `a`. -/
theorem runLoop_unchanged_invariant (now : String) (off : Int)
    (fetch : String → Option AppInfo) (a : String) (e : CacheEntry) (info : AppInfo)
    (hf : fetch a = some info) (hv : e.version = current_version_of info)
    (ids : List String) :
    ∀ st : LoopState, dictGet st.cache a = some e →
      st.updated.filter (fun u => u.app_id == a) = [] →
      dictGet (runLoop false now off fetch ids st).cache a = some e
      ∧ (runLoop false now off fetch ids st).updated.filter (fun u => u.app_id == a)
          = [] := by
  induction ids with
  | nil => exact fun st h1 h2 => ⟨h1, h2⟩
  | cons hd tl ih =>
      intro st h1 h2
      by_cases hhd : hd = a
      · subst hhd
        have hcv : cachedVersionAt st.cache hd = current_version_of info := by
          simp [cachedVersionAt, h1, hv]
        rw [runLoop, hf, processApp_notFirst_unchanged _ _ _ _ _ hcv]
        exact ih st h1 h2
      · rw [runLoop]
        apply ih
        · rw [processApp_cache_other _ _ _ _ _ _ _ hhd]
          exact h1
        · rw [processApp_updated_other _ _ _ _ _ _ _ hhd]
          exact h2

/-- Push-and-save behaviour of a first run (`cache0 = []`): one summary
notification and one save when at least one lookup succeeded, otherwise
neither. -/
theorem check_updates_core_first_push (pm : String) (ids : List String)
    (fetch : String → Option AppInfo) (now : String) (off : Int) (h : ids ≠ []) :
    (check_updates_core pm ids [] fetch now off).notifications
        = (if (runLoop true now off fetch ids ⟨[], [], []⟩).allCurrent.isEmpty then []
           else [first_run_notification pm
                   (runLoop true now off fetch ids ⟨[], [], []⟩).allCurrent])
    ∧ (check_updates_core pm ids [] fetch now off).cacheSaved
        = !(runLoop true now off fetch ids ⟨[], [], []⟩).allCurrent.isEmpty := by
  have hne : ids.isEmpty = false := by
    cases ids with
    | nil => exact absurd rfl h
    | cons a b => rfl
  unfold check_updates_core
  rw [hne]
  cases hsp : (runLoop true now off fetch ids ⟨[], [], []⟩).allCurrent.isEmpty with
  | true => simp [hsp]
  | false => simp [hsp]

/-! ## Claim theorems -/

/-- C1 (amended): on a non-first run, when an app id resolves to the same
version string as its cached entry, no change record is emitted for that id
and its cache entry is left completely untouched — its denormalized fields
(name, icon, region, timestamp) are NOT refreshed; the entry is rewritten
only when the version string differs.  No first-run statuses are accumulated
on such runs either. -/
theorem C1_unchanged_entry_untouched (pm now : String) (off : Int)
    (ids : List String) (cache0 : Cache) (fetch : String → Option AppInfo)
    (a : String) (e : CacheEntry) (info : AppInfo)
    (hc0 : cache0 ≠ []) (hget : dictGet cache0 a = some e)
    (hf : fetch a = some info) (hv : e.version = current_version_of info) :
    dictGet (check_updates_core pm ids cache0 fetch now off).finalCache a = some e
    ∧ (check_updates_core pm ids cache0 fetch now off).updatedApps.filter
        (fun u => u.app_id == a) = []
    ∧ (check_updates_core pm ids cache0 fetch now off).allCurrentApps = [] := by
  by_cases hids : ids = []
  · subst hids
    refine ⟨?_, ?_, ?_⟩ <;> simp [check_updates_core, hget]
  · have hemp : cache0.isEmpty = false := by
      cases cache0 with
      | nil => exact absurd rfl hc0
      | cons x xs => rfl
    obtain ⟨hfc, hup, hac, -⟩ :=
      check_updates_core_fields pm ids cache0 fetch now off hids
    rw [hemp] at hfc hup hac
    have hinv := runLoop_unchanged_invariant now off fetch a e info hf hv ids
      ⟨cache0, [], []⟩ hget rfl
    refine ⟨?_, ?_, ?_⟩
    · rw [hfc]; exact hinv.1
    · rw [hup]; exact hinv.2
    · rw [hac, runLoop_notFirst_allCurrent]

/-- Witness for C1 at the `runUnchanged` fixture. -/
theorem C1_unchanged_entry_untouched_witness :
    ([("1", entryOld)] : Cache) ≠ []
    ∧ dictGet [("1", entryOld)] "1" = some entryOld
    ∧ (fun _ : String => some infoSameVersion) "1" = some infoSameVersion
    ∧ entryOld.version = current_version_of infoSameVersion
    ∧ (dictGet runUnchanged.finalCache "1" = some entryOld
       ∧ runUnchanged.updatedApps.filter (fun u => u.app_id == "1") = []
       ∧ runUnchanged.allCurrentApps = []) :=
  ⟨by decide, by decide, rfl, by decide,
   C1_unchanged_entry_untouched "bark" "NOW" 0 ["1"] [("1", entryOld)]
     (fun _ => some infoSameVersion) "1" entryOld infoSameVersion
     (by decide) (by decide) rfl (by decide)⟩

/-- C1 counterexample: after an unchanged (equal-version) run the cache still
holds the stale name and icon even though the lookup returned new ones — the
denormalized fields are not refreshed, contrary to the claim. -/
theorem C1_refresh_counterexample :
    runUnchanged.finalCache = [("1", entryOld)]
    ∧ runUnchanged.updatedApps = []
    ∧ entryOld.version = current_version_of infoSameVersion
    ∧ entryOld.app_name = "Old"
    ∧ app_name_of infoSameVersion = "New"
    ∧ entryOld.icon ≠ app_icon_of infoSameVersion := by decide

/-- C2 (amended): on a non-first run, an app id absent from the cache whose
lookup succeeds (with a nonempty version string) yields exactly one change
record — classified among the updated apps and carrying the placeholder
`'首次检测'` in its `old_version` field, not a record without that field —
and afterwards the cache contains the entry built from the lookup. -/
theorem C2_absent_id_placeholder_record (pm now : String) (off : Int)
    (xs ys : List String) (cache0 : Cache) (fetch : String → Option AppInfo)
    (a : String) (info : AppInfo)
    (hc0 : cache0 ≠ []) (habs : dictGet cache0 a = none) (hf : fetch a = some info)
    (hxs : a ∉ xs) (hys : a ∉ ys) (hver : current_version_of info ≠ "") :
    (check_updates_core pm (xs ++ a :: ys) cache0 fetch now off).updatedApps.filter
        (fun u => u.app_id == a) = [updateInfoOf off a "首次检测" info]
    ∧ dictGet (check_updates_core pm (xs ++ a :: ys) cache0 fetch now off).finalCache a
        = some (cacheEntryOf now info) := by
  have hids : (xs ++ a :: ys) ≠ [] := by simp
  have hemp : cache0.isEmpty = false := by
    cases cache0 with
    | nil => exact absurd rfl hc0
    | cons x t => rfl
  obtain ⟨hfc, hup, -, -⟩ :=
    check_updates_core_fields pm (xs ++ a :: ys) cache0 fetch now off hids
  rw [hemp] at hfc hup
  rw [runLoop_append] at hfc hup
  set st1 := runLoop false now off fetch xs ⟨cache0, [], []⟩ with hst1
  have hpre := runLoop_preserves_other false now off fetch xs a hxs ⟨cache0, [], []⟩
  rw [← hst1] at hpre
  have h1 : dictGet st1.cache a = none := hpre.1.trans habs
  have h2 : st1.updated.filter (fun u => u.app_id == a) = [] := hpre.2
  have hcv : cachedVersionAt st1.cache a = "" := by
    simp [cachedVersionAt, h1]
  have hne2 : cachedVersionAt st1.cache a ≠ current_version_of info := by
    rw [hcv]
    exact fun he => hver he.symm
  rw [runLoop, hf, processApp_notFirst_changed _ _ _ _ _ hne2] at hfc hup
  rw [hcv] at hfc hup
  have hov : oldVersionOf "" = "首次检测" := rfl
  rw [hov] at hfc hup
  have hpost := runLoop_preserves_other false now off fetch ys a hys
    { st1 with
      updated := st1.updated ++ [updateInfoOf off a "首次检测" info],
      cache := dictInsert a (cacheEntryOf now info) st1.cache }
  refine ⟨?_, ?_⟩
  · rw [hup, hpost.2]
    simp [List.filter_append, h2, updateInfoOf_app_id]
  · rw [hfc, hpost.1, dictGet_dictInsert_self]

/-- Witness for C2 at the `runAbsentId` fixture. -/
theorem C2_absent_id_placeholder_record_witness :
    ([("other", entryOther)] : Cache) ≠ []
    ∧ dictGet [("other", entryOther)] "1" = none
    ∧ fetchOnlyOne "1" = some infoNew
    ∧ current_version_of infoNew ≠ ""
    ∧ ((check_updates_core "bark" ([] ++ "1" :: []) [("other", entryOther)]
          fetchOnlyOne "NOW" 0).updatedApps.filter (fun u => u.app_id == "1")
            = [updateInfoOf 0 "1" "首次检测" infoNew]
       ∧ dictGet (check_updates_core "bark" ([] ++ "1" :: []) [("other", entryOther)]
            fetchOnlyOne "NOW" 0).finalCache "1" = some (cacheEntryOf "NOW" infoNew)) :=
  ⟨by decide, by decide, rfl, by decide,
   C2_absent_id_placeholder_record "bark" "NOW" 0 [] [] [("other", entryOther)]
     fetchOnlyOne "1" infoNew (by decide) (by decide) rfl
     (by decide) (by decide) (by decide)⟩

/-- C2 counterexample: the record produced for an id absent from a nonempty
cache carries `old_version = '首次检测'` — it is an updated-app record with
an `old_version` field, not a new-app record without one. -/
theorem C2_old_version_counterexample :
    runAbsentId.updatedApps = [updateInfoOf 0 "1" "首次检测" infoNew]
    ∧ (updateInfoOf 0 "1" "首次检测" infoNew).old_version = "首次检测"
    ∧ runAbsentId.allCurrentApps = []
    ∧ (dictGet runAbsentId.finalCache "1").isSome = true := by decide

/-- C5 (amended): a soft per-item lookup failure leaves the whole run exactly
as if that app id had not been configured at all (other items, notifications
and the save decision included), provided some other id remains. -/
theorem C5_soft_failure_item_skipped (pm now : String) (off : Int) (cache0 : Cache)
    (fetch : String → Option AppInfo) (xs ys : List String) (a : String)
    (hf : fetch a = none) (hne : xs ++ ys ≠ []) :
    check_updates_core pm (xs ++ a :: ys) cache0 fetch now off
      = check_updates_core pm (xs ++ ys) cache0 fetch now off := by
  have hloop : ∀ (isF : Bool) (st : LoopState),
      runLoop isF now off fetch (xs ++ a :: ys) st
        = runLoop isF now off fetch (xs ++ ys) st := by
    intro isF st
    rw [runLoop_append, runLoop_append, runLoop, hf, processApp_none]
  have h1 : (xs ++ a :: ys).isEmpty = false := by simp
  have h2 : (xs ++ ys).isEmpty = false := by
    cases hxy : xs ++ ys with
    | nil => exact absurd hxy hne
    | cons u v => rfl
  simp only [check_updates_core, h1, h2, hloop, Bool.false_eq_true, if_false]

/-- Witness for C5: dropping the failed id `"1"` from the run changes
nothing. -/
theorem C5_soft_failure_item_skipped_witness :
    fetchSoftFail "1" = none
    ∧ (["2"] ++ [] : List String) ≠ []
    ∧ check_updates_core "bark" (["2"] ++ "1" :: []) [("2", entryTwo)]
        fetchSoftFail "NOW" 0
      = check_updates_core "bark" (["2"] ++ []) [("2", entryTwo)]
          fetchSoftFail "NOW" 0 :=
  ⟨rfl, by decide,
   C5_soft_failure_item_skipped "bark" "NOW" 0 [("2", entryTwo)] fetchSoftFail
     ["2"] [] "1" rfl (by decide)⟩

/-- C5 counterexample: a run with a soft lookup failure for `"1"` and an
unchanged `"2"` completes the loop but returns before `save_version_cache` —
it does NOT reach the cache-save step, contrary to the claim. -/
theorem C5_reaches_save_counterexample :
    fetchSoftFail "1" = none
    ∧ runSoftFailNoSave.aborted = false
    ∧ runSoftFailNoSave.updatedApps = []
    ∧ dictGet runSoftFailNoSave.finalCache "2" = some entryTwo
    ∧ runSoftFailNoSave.cacheSaved = false := by decide

/-- C10 (confirmed): with an empty loaded cache the run takes the first-run
path — no updated-app records regardless of fetched versions, one
`all_current_apps` status per successfully resolved id (in order), a cache
entry exactly for the resolved ids, and a single initialization summary
notification plus a save, both skipped when no lookup succeeded. -/
theorem C10_first_run_path (pm : String) (ids : List String)
    (fetch : String → Option AppInfo) (now : String) (off : Int) :
    (check_updates_core pm ids [] fetch now off).updatedApps = []
    ∧ (check_updates_core pm ids [] fetch now off).allCurrentApps.map AppStatus.app_id
        = ids.filter (fun id => (fetch id).isSome)
    ∧ (∀ x : String,
        (dictGet (check_updates_core pm ids [] fetch now off).finalCache x).isSome
          = (ids.contains x && (fetch x).isSome))
    ∧ (check_updates_core pm ids [] fetch now off).notifications
        = (if (check_updates_core pm ids [] fetch now off).allCurrentApps.isEmpty then []
           else [first_run_notification pm
                   (check_updates_core pm ids [] fetch now off).allCurrentApps])
    ∧ (check_updates_core pm ids [] fetch now off).cacheSaved
        = !(check_updates_core pm ids [] fetch now off).allCurrentApps.isEmpty := by
  by_cases hids : ids = []
  · subst hids
    exact ⟨rfl, rfl, fun x => rfl, rfl, rfl⟩
  · obtain ⟨hfc, hup, hac, -⟩ := check_updates_core_fields pm ids [] fetch now off hids
    simp only [List.isEmpty_nil] at hfc hup hac
    obtain ⟨hnot, hsave⟩ := check_updates_core_first_push pm ids fetch now off hids
    refine ⟨?_, ?_, ?_, ?_, ?_⟩
    · rw [hup, runLoop_first_updated]
    · rw [hac, runLoop_first_allCurrent_ids]
      simp
    · intro x
      rw [hfc, runLoop_first_cache_keys]
      simp [dictGet]
    · rw [hnot, hac]
    · rw [hsave, hac]

/-- C3 (amended): `save_version_cache` writes the snapshot by truncating the
cache file in place and writing into it directly — no temp file, no rename.
A completed save round-trips through `load_version_cache`, but a save
interrupted before completion leaves a state that a subsequent load treats as
an empty cache (first-run state), not as the previous snapshot. -/
theorem C3_direct_write_not_atomic (c : Cache) :
    load_version_cache (save_completed c) = c
    ∧ ∀ s ∈ save_interrupted_states c, load_version_cache s = [] := by
  refine ⟨rfl, ?_⟩
  intro s hs
  have hs' : s ∈ [CacheFileState.corrupt] := hs
  rw [List.mem_singleton] at hs'
  subst hs'
  rfl

/-- Witness for C3 at a one-entry snapshot. -/
theorem C3_direct_write_not_atomic_witness :
    load_version_cache (save_completed [("1", entryOld)]) = [("1", entryOld)]
    ∧ CacheFileState.corrupt ∈ save_interrupted_states [("1", entryOld)]
    ∧ load_version_cache CacheFileState.corrupt = [] :=
  ⟨(C3_direct_write_not_atomic [("1", entryOld)]).1, by decide,
   (C3_direct_write_not_atomic [("1", entryOld)]).2 CacheFileState.corrupt (by decide)⟩

/-- C3 counterexample: with previous snapshot `[("1", entryOld)]`, a save of
the new snapshot interrupted right after the truncating open leaves a corrupt
file; a subsequent load yields the empty cache, not the previous snapshot. -/
theorem C3_atomicity_counterexample :
    CacheFileState.corrupt ∈ save_interrupted_states [("1", cacheEntryOf "NOW" infoNew)]
    ∧ load_version_cache CacheFileState.corrupt = []
    ∧ load_version_cache (CacheFileState.wellFormed [("1", entryOld)]) = [("1", entryOld)]
    ∧ load_version_cache CacheFileState.corrupt
        ≠ load_version_cache (CacheFileState.wellFormed [("1", entryOld)]) := by decide

/-- C4 (confirmed): for any fixed per-region responses satisfying the iTunes
JSON contract, the resolver deterministically returns the result of the first
region of the priority list whose lookup succeeds with a positive result
count — with that region code attached and the first result carried — and
`None` when no region yields a positive count. -/
theorem C4_resolver_first_positive (resp : String → RegionResponse)
    (hwf : ∀ rg ∈ REGIONS, respWF (resp rg) = true) :
    (get_app_info_with_region resp).map AppInfo.detected_region
        = firstPositiveRegion resp REGIONS
    ∧ ∀ info, get_app_info_with_region resp = some info →
        ∃ status count results,
          resp info.detected_region = RegionResponse.ok status count results
          ∧ status = 200 ∧ 0 < count ∧ results.head? = some info.result :=
  lookupRegions_first_positive resp REGIONS hwf

/-- Witness for C4 at responses whose only positive region is `"hk"`. -/
theorem C4_resolver_first_positive_witness :
    (∀ rg ∈ REGIONS, respWF (respHK rg) = true)
    ∧ (get_app_info_with_region respHK).map AppInfo.detected_region
        = firstPositiveRegion respHK REGIONS
    ∧ firstPositiveRegion respHK REGIONS = some "hk" :=
  ⟨by decide, (C4_resolver_first_positive respHK (by decide)).1, by decide⟩

/-- C6 (amended): `send_telegram_notification` performs no markup escaping at
all: the posted text is exactly `*title*` + blank line + body with title and
body interpolated verbatim (no backslash is ever introduced), under
`parse_mode` Markdown. -/
theorem C6_no_markup_escaping (bot_token chat_id title content : String) :
    (send_telegram_notification_request bot_token chat_id title content).2.text
        = telegram_message title content
    ∧ (send_telegram_notification_request bot_token chat_id title content).2.parse_mode
        = "Markdown"
    ∧ (telegram_message title content).data.count '\\'
        = title.data.count '\\' + content.data.count '\\' := by
  refine ⟨rfl, rfl, ?_⟩
  have h1 : ("*" : String).data.count '\\' = 0 := by decide
  have h2 : ("\n\n" : String).data.count '\\' = 0 := by decide
  simp [telegram_message, String.data_append, List.count_append, h1, h2]

/-- C6 counterexample: the sent text for a title made of the markup
characters contains them bare — no special character is preceded by a
backslash, contrary to the claim; nor is a plain `'_'` escaped. -/
theorem C6_escaping_counterexample :
    telegram_message "_" "hello" = "*_*\n\nhello"
    ∧ isTelegramSpecial '_' = true
    ∧ allSpecialsEscaped (telegram_message "_" "hello").data = false
    ∧ allSpecialsEscaped (telegram_message telegramSpecialChars "x").data = false
    ∧ (telegram_message telegramSpecialChars "x").data.count '\\' = 0 := by decide

/-- C7 (amended): the resolver has no try-limit of any kind: it consults the
full fixed 20-region list, returning `None` exactly when every region of the
whole list fails to yield a positive result count. -/
theorem C7_no_region_try_limit (resp : String → RegionResponse)
    (hwf : ∀ rg ∈ REGIONS, respWF (resp rg) = true) :
    get_app_info_with_region resp = none
      ↔ ∀ rg ∈ REGIONS, regionHit resp rg = false := by
  have h : (get_app_info_with_region resp).map AppInfo.detected_region
      = firstPositiveRegion resp REGIONS :=
    (lookupRegions_first_positive resp REGIONS hwf).1
  constructor
  · intro hnone
    rw [hnone] at h
    exact (firstPositiveRegion_eq_none_iff resp REGIONS).mp h.symm
  · intro hall
    have h0 : firstPositiveRegion resp REGIONS = none :=
      (firstPositiveRegion_eq_none_iff resp REGIONS).mpr hall
    cases hg : get_app_info_with_region resp with
    | none => rfl
    | some i =>
        rw [hg, h0] at h
        cases h

/-- Witness for C7 at all-miss responses. -/
theorem C7_no_region_try_limit_witness :
    (∀ rg ∈ REGIONS, respWF (respNone rg) = true)
    ∧ (get_app_info_with_region respNone = none
        ↔ ∀ rg ∈ REGIONS, regionHit respNone rg = false)
    ∧ get_app_info_with_region respNone = none :=
  ⟨by decide, C7_no_region_try_limit respNone (by decide), by decide⟩

/-- C7 counterexample: with a claimed default try-limit of 6 the resolver
would stop after `["cn","us","hk","tw","jp","kr"]` and return NotFound on
responses whose only positive region is the 10th (`"de"`); the code instead
queries past position 6 and returns the `"de"` result. -/
theorem C7_try_limit_counterexample :
    REGIONS.take 6 = ["cn", "us", "hk", "tw", "jp", "kr"]
    ∧ firstPositiveRegion respDE (REGIONS.take 6) = none
    ∧ get_app_info_with_region respDE = some ⟨sampleRaw, "de"⟩ := by decide

/-- C8 (amended): when parsing fails, `format_datetime` returns the raw input
string unchanged — in full, not truncated to 16 characters; the literal
`'未知'` (unknown) marker for an empty release date comes from the call-site
guard at line 257, and a valid ISO string with a trailing `Z` renders as
`YYYY-MM-DD HH:MM`. -/
theorem C8_parse_failure_returns_raw (off : Int) (s : String)
    (h : fromisoformat (pyReplaceZ s) = none) :
    format_datetime off s = s
    ∧ formatted_release_date off "" = "未知"
    ∧ format_datetime off "2024-01-02T03:04:05Z" = "2024-01-02 03:04" := by
  refine ⟨?_, rfl, ?_⟩
  · simp [format_datetime, h]
  · have hdt : fromisoformat (pyReplaceZ "2024-01-02T03:04:05Z")
        = some ⟨2024, 1, 2, 3, 4, 5, 0, some 0⟩ := by decide
    have hz : astimezone_utc_naive off ⟨2024, 1, 2, 3, 4, 5, 0, some 0⟩
        = ⟨2024, 1, 2, 3, 4, 5, 0, none⟩ := by
      simp only [astimezone_utc_naive, Option.getD_some, neg_zero]
      decide
    simp only [format_datetime, hdt, hz]
    decide

/-- Witness for C8 at a string no CPython version parses. -/
theorem C8_parse_failure_returns_raw_witness :
    fromisoformat (pyReplaceZ invalidDateStr) = none
    ∧ format_datetime 0 invalidDateStr = invalidDateStr
    ∧ formatted_release_date 0 "" = "未知"
    ∧ format_datetime 0 "2024-01-02T03:04:05Z" = "2024-01-02 03:04" :=
  ⟨by decide,
   (C8_parse_failure_returns_raw 0 invalidDateStr (by decide)).1,
   (C8_parse_failure_returns_raw 0 invalidDateStr (by decide)).2.1,
   (C8_parse_failure_returns_raw 0 invalidDateStr (by decide)).2.2⟩

/-- C8 counterexample: on a 27-character unparsable input the formatter
returns all 27 characters, not the first 16 the claim describes. -/
theorem C8_first16_counterexample :
    format_datetime 0 invalidDateStr = invalidDateStr
    ∧ invalidDateStr.length = 27
    ∧ format_datetime 0 invalidDateStr ≠ invalidDateStr.take 16 := by decide

/-- C9 (amended): when `APP_IDS` is unset there is no fallback id: the
configured id list is empty and `check_updates` aborts early — nothing is
processed, notified or saved. -/
theorem C9_unset_app_ids_aborts (pm bk tt tc : Option String)
    (file : CacheFileState) (fetch : String → Option AppInfo)
    (now : String) (off : Int) :
    get_app_ids ⟨none, pm, bk, tt, tc⟩ = []
    ∧ (check_updates ⟨none, pm, bk, tt, tc⟩ file fetch now off).aborted = true
    ∧ (check_updates ⟨none, pm, bk, tt, tc⟩ file fetch now off).updatedApps = []
    ∧ (check_updates ⟨none, pm, bk, tt, tc⟩ file fetch now off).notifications = []
    ∧ (check_updates ⟨none, pm, bk, tt, tc⟩ file fetch now off).cacheSaved = false := by
  have h : get_app_ids ⟨none, pm, bk, tt, tc⟩ = [] := rfl
  refine ⟨h, ?_, ?_, ?_, ?_⟩ <;> simp [check_updates, h, check_updates_core]

/-- C9 counterexample: with `APP_IDS` unset the run aborts instead of
proceeding with a built-in test id. -/
theorem C9_fallback_counterexample :
    get_app_ids envUnset = []
    ∧ (check_updates envUnset CacheFileState.absent fetchOnlyOne "NOW" 0).aborted = true
    ∧ (check_updates envUnset CacheFileState.absent fetchOnlyOne "NOW" 0).notifications = []
    ∧ (check_updates envUnset CacheFileState.absent fetchOnlyOne "NOW" 0).cacheSaved
        = false := by decide
